import Mathlib

/-!
# finance-buddy — verification of the client-side document pipeline

Shallow embedding of the components the specification's claims are about:

* the currency-conversion service bundled in `src/src/components/AnalyzeButton.tsx`
  (`FALLBACK_RATES`, `fetchExchangeRates`, `getExchangeRates`, `convertToCHF`,
  `convertCurrency`);
* the batch processor / document store of `src/src/hooks/useDocumentProcessor.ts`
  (`processFiles`, local-storage persistence, delete / clear-all, and the
  filename heuristics `extractDateFromFilename`, `extractAmountFromFilename`,
  `extractVendorFromFilename`);
* the Supabase edge function `src/supabase/functions/process-document/index.ts`
  (upstream-status classification and response sanitisation).

Monetary amounts are modelled as exact rationals; JS `Math.round` is
`fun q => ⌊q * 100 + 1/2⌋ / 100` scaled to two decimals (`round2`), which is
Math.round's round-half-up rule.  JS `null`/`undefined` becomes `Option`.
-/

namespace FinanceBuddy

/-! ## Rate tables (AnalyzeButton.tsx, lines 639-683)

A JS object `{ [code]: rate }` is an association list with unique keys;
property read is first-match lookup, property write overwrites in place or
appends. -/

abbrev RateTable := List (String × ℚ)

/-- JS `s.toUpperCase()` on the ASCII strings used here (currency codes). -/
def toUpperAscii (s : String) : String := String.mk (s.data.map Char.toUpper)

/-- JS `s.toLowerCase()` on the ASCII strings used here (filenames). -/
def toLowerAscii (s : String) : String := String.mk (s.data.map Char.toLower)

/-- `rates[c]` — first-match association lookup, `undefined` as `none`. -/
def lookupRate : RateTable → String → Option ℚ
  | [], _ => none
  | (k, v) :: rest, c => if k = c then some v else lookupRate rest c

/-- Whether the key is present (used to model JS property assignment). -/
def hasKey : RateTable → String → Bool
  | [], _ => false
  | (k, _) :: rest, c => k = c || hasKey rest c

/-- `rates[c] = v` — overwrite the existing entry, else append. -/
def insertRate (t : RateTable) (c : String) (v : ℚ) : RateTable :=
  if hasKey t c then t.map (fun p => if p.1 = c then (c, v) else p)
  else t ++ [(c, v)]

/-- `FALLBACK_RATES` — the static fallback table of AnalyzeButton.tsx lines
644-678 (code → units of that currency per 1 CHF, divided by on conversion). -/
def FALLBACK_RATES : RateTable :=
  [("CHF", 1), ("EUR", 0.95), ("USD", 0.91), ("GBP", 1.15), ("JPY", 0.0064),
   ("CAD", 0.67), ("AUD", 0.60), ("SEK", 0.085), ("NOK", 0.083), ("DKK", 0.13),
   ("PLN", 0.23), ("CZK", 0.041), ("HUF", 0.0026), ("RON", 0.20), ("BGN", 0.51),
   ("HRK", 0.13), ("TRY", 0.027), ("RUB", 0.0098), ("CNY", 0.13), ("HKD", 0.12),
   ("SGD", 0.68), ("NZD", 0.56), ("ZAR", 0.049), ("BRL", 0.18), ("MXN", 0.046),
   ("ARS", 0.00091), ("KRW", 0.00067), ("INR", 0.011), ("THB", 0.026),
   ("MYR", 0.21), ("IDR", 0.000059), ("PHP", 0.016), ("VND", 0.000037)]

/-- JS `Math.round(x * 100) / 100`: rounding to 2 decimals, halves up. -/
def round2 (q : ℚ) : ℚ := (Int.floor (q * 100 + 1 / 2) : ℚ) / 100

/-- Round-half-away-from-zero to 2 decimals, as the spec words it
("round-half-away-from-zero (or equivalent)", spec section 4.1). -/
def roundHalfAwayFromZero2 (q : ℚ) : ℚ :=
  if 0 ≤ q then (Int.floor (q * 100 + 1 / 2) : ℚ) / 100
  else -((Int.floor (-q * 100 + 1 / 2) : ℚ) / 100)

/-! ## The exchange-rate cache (AnalyzeButton.tsx, lines 680-734)

The module-level mutable cache is threaded explicitly: `getExchangeRates`
takes the cache state, the current clock (`Date.now()`, milliseconds) and the
outcome of the network fetch, and returns the table together with the new
cache state.  A fetch outcome of `none` covers both a non-ok HTTP response
and a thrown network/parse error — every path on which `fetchExchangeRates`
returns `null`. -/

structure RatesCache where
  ratesCache : Option RateTable
  cacheTimestamp : ℤ
deriving DecidableEq

def CACHE_DURATION : ℤ := 3600000

/-- Body of `fetchExchangeRates`'s success path: start from `{ CHF: 1 }` and
write `rates[currency] = 1 / rate` for every entry of `data.rates`. -/
def parseFetchedRates (entries : List (String × ℚ)) : RateTable :=
  entries.foldl (fun acc p => insertRate acc p.1 (1 / p.2)) [("CHF", 1)]

/-- `fetchExchangeRates` (lines 688-711): `null` on any failure, otherwise
the inverted table. -/
def fetchExchangeRates (response : Option (List (String × ℚ))) : Option RateTable :=
  response.map parseFetchedRates

/-- `getExchangeRates` (lines 716-734): fresh cache wins; otherwise refresh
and cache on success; otherwise the static fallback (cache untouched). -/
def getExchangeRates (st : RatesCache) (now : ℤ)
    (response : Option (List (String × ℚ))) : RateTable × RatesCache :=
  match st.ratesCache with
  | some cached =>
      if now - st.cacheTimestamp < CACHE_DURATION then (cached, st)
      else
        match fetchExchangeRates response with
        | some rates => (rates, ⟨some rates, now⟩)
        | none => (FALLBACK_RATES, st)
  | none =>
      match fetchExchangeRates response with
      | some rates => (rates, ⟨some rates, now⟩)
      | none => (FALLBACK_RATES, st)

/-! ## convertToCHF / convertCurrency (AnalyzeButton.tsx, lines 739-813)

`rates` is the table obtained from `getExchangeRates` (which never throws,
so the `catch` branches of the source are dead code).  The JS falsiness test
`if (!rate)` treats both a missing entry and a zero rate as unknown. -/

/-- `convertToCHF(amount, fromCurrency)` (lines 739-774). -/
def convertToCHF (rates : RateTable) (amount : Option ℚ)
    (fromCurrency : Option String) : Option ℚ :=
  match amount, fromCurrency with
  | some a, some c =>
      let currency := toUpperAscii c
      if currency = "CHF" then some (round2 a)
      else
        match lookupRate rates currency with
        | none => some (round2 a)
        | some r => if r = 0 then some (round2 a) else some (round2 (a / r))
  | _, _ => none

/-- `convertCurrency(amount, fromCurrency, toCurrency)` (lines 779-813). -/
def convertCurrency (rates : RateTable) (amount : Option ℚ)
    (fromCurrency : Option String) (toCurrency : String) : Option ℚ :=
  match amount, fromCurrency with
  | some a, some c =>
      if toUpperAscii c = toUpperAscii toCurrency then some (round2 a)
      else
        match convertToCHF rates (some a) (some c) with
        | none => none
        | some inCHF =>
            if toUpperAscii toCurrency = "CHF" then some inCHF
            else
              match lookupRate rates (toUpperAscii toCurrency) with
              | none => some inCHF
              | some tr =>
                  if tr = 0 then some inCHF else some (round2 (inCHF * tr))
  | _, _ => none

/-! ## Document records (src/src/types/document.ts, useDocumentProcessor.ts)

`ProcessedDocument` and `ExtractedData` mirror the TypeScript shapes; every
nullable field is an `Option`.  `uploadedAt` is a millisecond timestamp. -/

inductive DocumentType where
  | bank_statement
  | invoice
  | receipt
  | unknown
deriving DecidableEq

inductive DocStatus where
  | processing
  | completed
  | error
deriving DecidableEq

structure ExtractedData where
  documentDate : Option String
  issuer : Option String
  documentNumber : Option String
  totalAmount : Option ℚ
  originalCurrency : Option String
  totalAmountCHF : Option ℚ
  vatAmount : Option ℚ
  vatAmountCHF : Option ℚ
  netAmount : Option ℚ
  netAmountCHF : Option ℚ
  expenseCategory : Option String
deriving DecidableEq

/-- The all-null `extractedData` of a freshly enqueued placeholder
(useDocumentProcessor.ts lines 144-156). -/
def emptyExtractedData : ExtractedData :=
  ⟨none, none, none, none, none, none, none, none, none, none, none⟩

structure ProcessedDocument where
  id : String
  fileName : String
  fileType : String
  documentType : DocumentType
  extractedData : ExtractedData
  status : DocStatus
  errorMessage : Option String
  uploadedAt : ℤ
deriving DecidableEq

/-! ## The document record store (useDocumentProcessor.ts)

The hook's state is the in-memory `documents` array plus the localStorage
snapshot under the fixed key `finance-buddy-documents`; `none` models an
absent key (after `localStorage.removeItem`).  Every `setDocuments` call in
the source saves the updated array to localStorage inside the updater — but
`saveDocumentsToLocalStorage` wraps `localStorage.setItem` in a try/catch
whose catch only logs, so a thrown write (storage quota, disabled storage)
is swallowed and the snapshot keeps its previous value while memory
updates.  Each `setItem` call's outcome is therefore an input of the model
(a `writeOk` flag).  The best-effort Supabase mirror is a `remoteOk` flag
that the local transition never reads. -/

structure StoreState where
  documents : List ProcessedDocument
  storage : Option (List ProcessedDocument)
deriving DecidableEq

/-- `loadDocumentsFromLocalStorage` (lines 30-46) starting from the initial
empty array: an absent or present snapshot reconstructs to the list a
consumer observes. -/
def loadLocalSnapshot (storage : Option (List ProcessedDocument)) :
    List ProcessedDocument :=
  storage.getD []

/-- `saveDocumentsToLocalStorage` (lines 48-54): `localStorage.setItem`
under the fixed key on success; on a thrown write the catch only logs, the
snapshot stays what it was, and no error escapes. -/
def saveDocumentsToLocalStorage (writeOk : Bool)
    (docs : List ProcessedDocument)
    (prev : Option (List ProcessedDocument)) :
    Option (List ProcessedDocument) :=
  if writeOk then some docs else prev

/-- `setDocuments(prev => { const updated = [newDoc, ...prev];
saveDocumentsToLocalStorage(updated); return updated })`
(lines 161-165). -/
def upsertPrepend (writeOk : Bool) (st : StoreState)
    (doc : ProcessedDocument) : StoreState :=
  let updated := doc :: st.documents
  ⟨updated, saveDocumentsToLocalStorage writeOk updated st.storage⟩

/-- `setDocuments(prev => { const updated = prev.map(d => d.id === docId ?
newDoc : d); saveDocumentsToLocalStorage(updated); return updated })`
(lines 249-255 and 306-312). -/
def updateById (writeOk : Bool) (st : StoreState) (docId : String)
    (doc : ProcessedDocument) : StoreState :=
  let updated := st.documents.map (fun d => if d.id = docId then doc else d)
  ⟨updated, saveDocumentsToLocalStorage writeOk updated st.storage⟩

/-! ## The batch processor (`processFiles`, lines 118-327)

One `FileJob` is an uploaded file together with the outcome its extraction
attempt will have (the remote call is an external collaborator, so its
result is an input of the model).  `processFiles` walks the batch in order:
prepend-upsert the placeholder, run extraction, overwrite the record with
the completed or errored version — and then continue with the next file
regardless of how this one ended. -/

/-- The extraction error taxonomy of spec section 7 as carried by a failed
per-file attempt; `processFiles` sees only the thrown `Error` and its
message (line 303). -/
inductive ExtractionFailure where
  | rateLimited (msg : String)
  | quotaExhausted (msg : String)
  | malformedResponse (msg : String)
  | unavailable (msg : String)
deriving DecidableEq

def failureMessage : ExtractionFailure → String
  | .rateLimited m => m
  | .quotaExhausted m => m
  | .malformedResponse m => m
  | .unavailable m => m

/-- A successful gateway response (`processedData`): a document type plus
extracted fields. -/
structure GatewayData where
  documentType : DocumentType
  extractedData : ExtractedData
deriving DecidableEq

instance {α β : Type} [DecidableEq α] [DecidableEq β] :
    DecidableEq (Except α β) := fun x y =>
  match x, y with
  | .ok a, .ok b =>
      if h : a = b then isTrue (by rw [h])
      else isFalse (fun he => h (by cases he; rfl))
  | .error a, .error b =>
      if h : a = b then isTrue (by rw [h])
      else isFalse (fun he => h (by cases he; rfl))
  | .ok _, .error _ => isFalse (fun he => Except.noConfusion he)
  | .error _, .ok _ => isFalse (fun he => Except.noConfusion he)

/-- An uploaded file together with the environment outcomes its iteration
will see: whether each of its two localStorage writes (the placeholder save
and the completion/error save) succeeds, and the result of its extraction
attempt. -/
structure FileJob where
  id : String
  fileName : String
  fileType : String
  uploadedAt : ℤ
  placeholderSaveOk : Bool
  finalSaveOk : Bool
  outcome : Except ExtractionFailure GatewayData
deriving DecidableEq

/-- The placeholder record enqueued for a file (lines 139-159). -/
def placeholderDoc (j : FileJob) : ProcessedDocument :=
  { id := j.id, fileName := j.fileName, fileType := j.fileType,
    documentType := .unknown, extractedData := emptyExtractedData,
    status := .processing, errorMessage := none, uploadedAt := j.uploadedAt }

/-- JS truthiness of a nullable number (`if (extractedData.totalAmount …)`). -/
def truthyNum : Option ℚ → Bool
  | none => false
  | some a => a ≠ 0

/-- JS truthiness of a nullable string. -/
def truthyStr : Option String → Bool
  | none => false
  | some s => s ≠ ""

/-- The CHF-conversion block of `processFiles` (lines 220-239): for each of
total/VAT/net, if amount and currency are truthy, overwrite the CHF field
with the converter's non-null result. -/
def applyConversions (rates : RateTable) (d : ExtractedData) : ExtractedData :=
  let d1 :=
    if truthyNum d.totalAmount && truthyStr d.originalCurrency then
      match convertToCHF rates d.totalAmount d.originalCurrency with
      | some v => { d with totalAmountCHF := some v }
      | none => d
    else d
  let d2 :=
    if truthyNum d1.vatAmount && truthyStr d1.originalCurrency then
      match convertToCHF rates d1.vatAmount d1.originalCurrency with
      | some v => { d1 with vatAmountCHF := some v }
      | none => d1
    else d1
  if truthyNum d2.netAmount && truthyStr d2.originalCurrency then
    match convertToCHF rates d2.netAmount d2.originalCurrency with
    | some v => { d2 with netAmountCHF := some v }
    | none => d2
  else d2

/-- The record a file's iteration leaves in the store: the completed
document (lines 242-247) on success, the errored one (lines 300-304) on any
failure — the `catch` block does not distinguish the failure kind. -/
def finalDoc (rates : RateTable) (j : FileJob) : ProcessedDocument :=
  match j.outcome with
  | .ok g =>
      { placeholderDoc j with
          documentType := g.documentType,
          extractedData := applyConversions rates g.extractedData,
          status := .completed }
  | .error e =>
      { placeholderDoc j with
          status := .error, errorMessage := some (failureMessage e) }

/-- Observable store events of one batch run, in the order the source
performs them. -/
inductive BatchEvent where
  | upsertPlaceholder (id : String)
  | extractStart (id : String)
  | markCompleted (id : String)
  | markError (id : String)
deriving DecidableEq

def isPlaceholderUpsert : BatchEvent → Bool
  | .upsertPlaceholder _ => true
  | _ => false

def isExtractStart : BatchEvent → Bool
  | .extractStart _ => true
  | _ => false

/-- The events one file's iteration emits, in source order: upsert the
placeholder (line 161), start the extraction attempt (line 169), then mark
the record completed or errored. -/
def jobEvents (j : FileJob) : List BatchEvent :=
  [.upsertPlaceholder j.id, .extractStart j.id,
    match j.outcome with
    | .ok _ => .markCompleted j.id
    | .error _ => .markError j.id]

/-- One iteration of the `for (const file of files)` loop (lines 135-320). -/
def processOne (rates : RateTable) (st : StoreState) (j : FileJob) :
    StoreState × List BatchEvent :=
  let st1 := upsertPrepend j.placeholderSaveOk st (placeholderDoc j)
  let st2 := updateById j.finalSaveOk st1 j.id (finalDoc rates j)
  (st2, jobEvents j)

/-- `processFiles` (lines 118-327): sequential, never halts early. -/
def processFiles (rates : RateTable) (st : StoreState) :
    List FileJob → StoreState × List BatchEvent
  | [] => (st, [])
  | j :: rest =>
      let one := processOne rates st j
      let next := processFiles rates one.1 rest
      (next.1, one.2 ++ next.2)

/-- The claim's ordering property over a batch trace: every placeholder
upsert happens before the first extraction starts (no upsert at or after
an `extractStart`). -/
def allPlaceholdersBeforeExtraction (trace : List BatchEvent) : Bool :=
  !((trace.dropWhile (fun e => !isExtractStart e)).any isPlaceholderUpsert)

/-! ## Store mutations and persistence (claim C7)

The four mutation sites of the hook.  `remoteOk` is the outcome of the
best-effort Supabase mirror write/delete (lines 257-295, 335-351, 378-394),
which the source try/catches and ignores. -/

inductive StoreMutation where
  | insertPlaceholder (j : FileJob)
  | updateRecord (docId : String) (doc : ProcessedDocument)
  | removeOne (docId : String)
  | removeAll
deriving DecidableEq

/-- The local effect of each mutation: placeholder insertion (lines
161-165), completion/error update (249-255, 306-312) and single delete
(354-358) all persist through the fallible `saveDocumentsToLocalStorage`;
clear-all (396-398) calls `localStorage.removeItem` on the key directly —
removing a key stores no new data, so it is not subject to the quota
failure the save's try/catch guards and is modelled as always
succeeding. -/
def applyMutation (m : StoreMutation) (localWriteOk remoteOk : Bool)
    (st : StoreState) : StoreState :=
  match m with
  | .insertPlaceholder j => upsertPrepend localWriteOk st (placeholderDoc j)
  | .updateRecord docId doc => updateById localWriteOk st docId doc
  | .removeOne docId =>
      let updated := st.documents.filter (fun d => d.id ≠ docId)
      ⟨updated, saveDocumentsToLocalStorage localWriteOk updated st.storage⟩
  | .removeAll => ⟨[], none⟩

/-! ## Loading stored rows (claim C8, loadDocuments lines 82-103)

`doc.total_amount ? Number(doc.total_amount) : null` — a numeric column is
passed through a JS truthiness test before being kept. -/

/-- The ternary truthiness guard `v ? Number(v) : null` applied to a stored
numeric field by `loadDocuments`. -/
def loadNumericField (v : Option ℚ) : Option ℚ :=
  match v with
  | none => none
  | some x => if x = 0 then none else some x

/-! ## The edge function (src/supabase/functions/process-document/index.ts)

Upstream-status classification (lines 382-399 plus the catch-all at
442-464) and response sanitisation (lines 419-435). -/

/-- `conversionRates` (index.ts lines 9-43) — same contents as the client's
fallback table. -/
def conversionRates : RateTable :=
  [("CHF", 1), ("EUR", 0.95), ("USD", 0.91), ("GBP", 1.15), ("JPY", 0.0064),
   ("CAD", 0.67), ("AUD", 0.60), ("SEK", 0.085), ("NOK", 0.083), ("DKK", 0.13),
   ("PLN", 0.23), ("CZK", 0.041), ("HUF", 0.0026), ("RON", 0.20), ("BGN", 0.51),
   ("HRK", 0.13), ("TRY", 0.027), ("RUB", 0.0098), ("CNY", 0.13), ("HKD", 0.12),
   ("SGD", 0.68), ("NZD", 0.56), ("ZAR", 0.049), ("BRL", 0.18), ("MXN", 0.046),
   ("ARS", 0.00091), ("KRW", 0.00067), ("INR", 0.011), ("THB", 0.026),
   ("MYR", 0.21), ("IDR", 0.000059), ("PHP", 0.016), ("VND", 0.000037)]

/-- The edge function's own `convertToCHF` (index.ts lines 45-49):
`conversionRates[currency.toUpperCase()] || 1`, then 2-decimal rounding. -/
def serverConvertToCHF (amount : Option ℚ) (currency : Option String) : Option ℚ :=
  match amount, currency with
  | some a, some c =>
      let rate :=
        match lookupRate conversionRates (toUpperAscii c) with
        | none => 1
        | some r => if r = 0 then 1 else r
      some (round2 (a / rate))
  | _, _ => none

/-- An error `Response` of the edge function: HTTP status plus the JSON
`error` message. -/
structure ErrorResponse where
  status : ℕ
  message : String
deriving DecidableEq

/-- Classification of the upstream AI-gateway status (index.ts lines
382-399): `response.ok` (2xx) proceeds; 429 and 402 are answered directly;
every other status throws `AI gateway error: <status>` which the outer
catch turns into a 500. -/
def classifyUpstreamStatus (s : ℕ) : Option ErrorResponse :=
  if 200 ≤ s ∧ s ≤ 299 then none
  else if s = 429 then
    some ⟨429, "Rate limit exceeded. Please try again later."⟩
  else if s = 402 then
    some ⟨402, "AI credits depleted. Please add more credits."⟩
  else some ⟨500, "AI gateway error: " ++ toString s⟩

/-- JS `x || null` on a nullable numeric field (index.ts lines 426-431). -/
def orNullNum (v : Option ℚ) : Option ℚ :=
  match v with
  | none => none
  | some x => if x = 0 then none else some x

/-- JS `x || null` on a nullable string field (index.ts lines 423-433). -/
def orNullStr (v : Option String) : Option String :=
  match v with
  | none => none
  | some s => if s = "" then none else some s

/-- The result assembly of the edge function (index.ts lines 419-435):
every field is normalized with `|| null`, and the CHF fields are computed
from the raw (pre-normalization) values. -/
def sanitizeGatewayResult (docType : Option DocumentType) (d : ExtractedData) :
    GatewayData :=
  { documentType := docType.getD .unknown,
    extractedData :=
      { documentDate := orNullStr d.documentDate,
        issuer := orNullStr d.issuer,
        documentNumber := orNullStr d.documentNumber,
        totalAmount := orNullNum d.totalAmount,
        originalCurrency := orNullStr d.originalCurrency,
        totalAmountCHF := serverConvertToCHF d.totalAmount d.originalCurrency,
        vatAmount := orNullNum d.vatAmount,
        vatAmountCHF := serverConvertToCHF d.vatAmount d.originalCurrency,
        netAmount := orNullNum d.netAmount,
        netAmountCHF := serverConvertToCHF d.netAmount d.originalCurrency,
        expenseCategory := orNullStr d.expenseCategory } }

/-! ## Filename heuristics (useDocumentProcessor.ts, lines 443-598)

The JS regexes are embedded as explicit scanners over the character list:
a `match` against an unanchored pattern tries the pattern at each position
from the left and returns the first success (all the patterns here need at
least one character, so the end-of-string position can never match).
Quantifiers `{n}` are exact-length takes; `+` is greedy with backtracking
where a continuation follows; `?` tries the longer alternative first. -/

/-- Leftmost-match search: try the pattern at each start position. -/
def scanFirst {α : Type} (f : List Char → Option α) : List Char → Option α
  | [] => none
  | c :: cs =>
      match f (c :: cs) with
      | some r => some r
      | none => scanFirst f cs

/-- `\d{n}`: exactly `n` digits, returning them and the rest. -/
def takeDigits : ℕ → List Char → Option (List Char × List Char)
  | 0, cs => some ([], cs)
  | _ + 1, [] => none
  | n + 1, c :: cs =>
      if c.isDigit then
        match takeDigits n cs with
        | some (ds, rest) => some (c :: ds, rest)
        | none => none
      else none

/-- `[-_]` of the ISO date pattern. -/
def isDateSep (c : Char) : Bool := c = '-' || c = '_'

/-- `[-_.]` of the European date pattern. -/
def isEuDateSep (c : Char) : Bool := c = '-' || c = '_' || c = '.'

/-- `(\d{4})[-_](\d{2})[-_](\d{2})` at one position (line 505). -/
def matchIsoAt (cs : List Char) : Option (List Char × List Char × List Char) :=
  match takeDigits 4 cs with
  | none => none
  | some (y, rest1) =>
      match rest1 with
      | [] => none
      | s1 :: rest2 =>
          if isDateSep s1 then
            match takeDigits 2 rest2 with
            | none => none
            | some (m, rest3) =>
                match rest3 with
                | [] => none
                | s2 :: rest4 =>
                    if isDateSep s2 then
                      match takeDigits 2 rest4 with
                      | none => none
                      | some (d, _) => some (y, m, d)
                    else none
          else none

/-- `(\d{2})[-_.](\d{2})[-_.](\d{4})` at one position (line 511). -/
def matchEuAt (cs : List Char) : Option (List Char × List Char × List Char) :=
  match takeDigits 2 cs with
  | none => none
  | some (d, rest1) =>
      match rest1 with
      | [] => none
      | s1 :: rest2 =>
          if isEuDateSep s1 then
            match takeDigits 2 rest2 with
            | none => none
            | some (m, rest3) =>
                match rest3 with
                | [] => none
                | s2 :: rest4 =>
                    if isEuDateSep s2 then
                      match takeDigits 4 rest4 with
                      | none => none
                      | some (y, _) => some (d, m, y)
                    else none
          else none

/-- `(\d{4})(\d{2})(\d{2})` at one position (line 517). -/
def matchCompactAt (cs : List Char) :
    Option (List Char × List Char × List Char) :=
  match takeDigits 4 cs with
  | none => none
  | some (y, r1) =>
      match takeDigits 2 r1 with
      | none => none
      | some (m, r2) =>
          match takeDigits 2 r2 with
          | none => none
          | some (d, _) => some (y, m, d)

/-- `parseInt` on a digit group. -/
def digitsVal (l : List Char) : ℕ :=
  l.foldl (fun a c => a * 10 + (c.toNat - '0'.toNat)) 0

/-- `extractDateFromFilename` (lines 503-528): ISO, then European (with
the day/month/year reordered), then compact with plausibility bounds —
and if the first compact match is implausible the result is null, no
further positions are tried. -/
def extractDateFromFilename (filename : String) : Option String :=
  let cs := filename.toList
  match scanFirst matchIsoAt cs with
  | some (y, m, d) => some (String.mk (y ++ '-' :: m ++ '-' :: d))
  | none =>
      match scanFirst matchEuAt cs with
      | some (d, m, y) => some (String.mk (y ++ '-' :: m ++ '-' :: d))
      | none =>
          match scanFirst matchCompactAt cs with
          | some (y, m, d) =>
              if 2000 ≤ digitsVal y ∧ digitsVal y ≤ 2100 ∧
                  1 ≤ digitsVal m ∧ digitsVal m ≤ 12 ∧
                  1 ≤ digitsVal d ∧ digitsVal d ≤ 31 then
                some (String.mk (y ++ '-' :: m ++ '-' :: d))
              else none
          | none => none

/-- `filename.replace(/\.[^/.]+$/, '')`: drop a final dot-extension whose
extension part is nonempty and free of `.` and `/`. -/
def stripExtension (cs : List Char) : List Char :=
  let r := cs.reverse
  let ext := r.takeWhile (fun c => c ≠ '.' && c ≠ '/')
  match r.drop ext.length with
  | '.' :: more => if ext.isEmpty then cs else more.reverse
  | _ => cs

/-- `needle` occurs as a contiguous substring (JS `String.includes`). -/
def isSubstring (needle : List Char) : List Char → Bool
  | [] => needle.isEmpty
  | c :: rest => needle.isPrefixOf (c :: rest) || isSubstring needle rest

/-- `CURRENCY_PATTERNS` (lines 490-500), in object-literal order. -/
def CURRENCY_PATTERNS : List (String × String) :=
  [("chf", "CHF"), ("fr", "CHF"), ("sfr", "CHF"), ("eur", "EUR"), ("€", "EUR"),
   ("usd", "USD"), ("$", "USD"), ("gbp", "GBP"), ("£", "GBP")]

/-- The currency-detection loop of `extractAmountFromFilename`
(lines 545-551): first pattern contained in the cleaned name wins,
defaulting to CHF. -/
def detectCurrency (cleaned : List Char) : String :=
  match CURRENCY_PATTERNS.find? (fun p => isSubstring p.1.toList cleaned) with
  | some p => p.2
  | none => "CHF"

/-- JS `\s` on the characters that occur in filenames. -/
def isJsSpace (c : Char) : Bool := c = ' ' || c = '\t' || c = '\n' || c = '\r'

def skipSpaces (cs : List Char) : List Char := cs.dropWhile isJsSpace

/-- The alternation `chf|eur|usd|gbp|fr|sfr|€|\$|£`, in source order
(lines 537-538; the cleaned name is already lowercase, so `/i` is
covered). -/
def currencyTokens : List (List Char) :=
  ["chf", "eur", "usd", "gbp", "fr", "sfr", "€", "$", "£"].map String.toList

/-- `(\d+(?:[.,]\d{2})?)`: greedy digits, then optionally a separator and
exactly two digits.  Nothing follows this group in the patterns that use
it, so the greedy take needs no backtracking. -/
def matchNumberGroup (cs : List Char) : Option (List Char × List Char) :=
  let ds := cs.takeWhile Char.isDigit
  if ds.isEmpty then none
  else
    let rest := cs.drop ds.length
    match rest with
    | c :: d1 :: d2 :: rest2 =>
        if (c = '.' || c = ',') && d1.isDigit && d2.isDigit then
          some (ds ++ [c, d1, d2], rest2)
        else some (ds, rest)
    | _ => some (ds, rest)

/-- Does any currency token start here? (the alternation is the last
element of pattern 2, so a prefix match suffices). -/
def matchTokensHere (cs : List Char) : Bool :=
  currencyTokens.any (fun tok => tok.isPrefixOf cs)

/-- Pattern 1, `(?:chf|…|£)\s*(\d+(?:[.,]\d{2})?)`, at one position
(line 537): alternatives tried in order, the number group captured. -/
def matchPat1At (cs : List Char) : Option (List Char) :=
  currencyTokens.findSome? (fun tok =>
    if tok.isPrefixOf cs then
      (matchNumberGroup (skipSpaces (cs.drop tok.length))).map Prod.fst
    else none)

/-- Backtracking over the greedy `\d+` of pattern 2: try the digit-run
length `k`, preferring the optional `[.,]\d{2}` continuation, else shrink
the run. -/
def pat2Try (cs : List Char) : ℕ → Option (List Char)
  | 0 => none
  | k + 1 =>
      let ds := cs.take (k + 1)
      let rest := cs.drop (k + 1)
      let withDecimals : Option (List Char) :=
        match rest with
        | c :: d1 :: d2 :: rest2 =>
            if (c = '.' || c = ',') && d1.isDigit && d2.isDigit &&
                matchTokensHere (skipSpaces rest2) then
              some (ds ++ [c, d1, d2])
            else none
        | _ => none
      match withDecimals with
      | some g => some g
      | none =>
          if matchTokensHere (skipSpaces rest) then some ds
          else pat2Try cs k

/-- Pattern 2, `(\d+(?:[.,]\d{2})?)\s*(?:chf|…|£)`, at one position
(line 538). -/
def matchPat2At (cs : List Char) : Option (List Char) :=
  pat2Try cs (cs.takeWhile Char.isDigit).length

/-- Patterns 3 and 4, `amount[=_-]?(\d+(?:[.,]\d{2})?)` and
`total[=_-]?(\d+(?:[.,]\d{2})?)`, at one position (lines 539-540): the
optional separator is consumed when present (dropping it instead would put
a non-digit where `\d+` must start). -/
def matchKeywordNumAt (kw : List Char) (cs : List Char) : Option (List Char) :=
  if kw.isPrefixOf cs then
    let rest := cs.drop kw.length
    match rest with
    | c :: tail =>
        if c = '=' || c = '_' || c = '-' then
          match matchNumberGroup tail with
          | some p => some p.1
          | none => (matchNumberGroup rest).map Prod.fst
        else (matchNumberGroup rest).map Prod.fst
    | [] => none
  else none

/-- The five amount patterns of lines 536-542, in order. -/
def amountPatternMatchers : List (List Char → Option (List Char)) :=
  [matchPat1At, matchPat2At,
    matchKeywordNumAt "amount".toList, matchKeywordNumAt "total".toList,
    fun cs => (matchNumberGroup cs).map Prod.fst]

/-- `parseFloat(match[1].replace(',', '.'))` on a captured group (which is
always digits optionally followed by a separator and two digits), as an
exact rational. -/
def parseAmountStr (g : List Char) : ℚ :=
  let g2 := g.map (fun c => if c = ',' then '.' else c)
  let intPart := g2.takeWhile (fun c => c ≠ '.')
  match g2.drop intPart.length with
  | _ :: frac => (digitsVal intPart : ℚ) + (digitsVal frac : ℚ) / (10 : ℚ) ^ frac.length
  | [] => (digitsVal intPart : ℚ)

/-- The pattern loop of `extractAmountFromFilename` (lines 553-563): first
pattern whose first match parses to a plausible amount (strictly between 0
and 1,000,000) wins; an implausible first match moves to the next pattern,
not the next position. -/
def amountSearchLoop (cleaned : List Char) :
    List (List Char → Option (List Char)) → Option ℚ
  | [] => none
  | p :: ps =>
      match scanFirst p cleaned with
      | some g =>
          let amt := parseAmountStr g
          if 0 < amt ∧ amt < 1000000 then some amt
          else amountSearchLoop cleaned ps
      | none => amountSearchLoop cleaned ps

/-- `extractAmountFromFilename` (lines 531-566): strip the extension,
lowercase, detect the currency (independently of the amount), then run the
pattern loop. -/
def extractAmountFromFilename (filename : String) : Option ℚ × String :=
  let cleaned := (stripExtension filename.toList).map Char.toLower
  (amountSearchLoop cleaned amountPatternMatchers, detectCurrency cleaned)

structure VendorInfo where
  name : String
  category : String
  type : DocumentType
deriving DecidableEq

/-- `KNOWN_VENDORS` (lines 444-487), in object-literal order. -/
def KNOWN_VENDORS : List (String × VendorInfo) :=
  [("revolut", ⟨"Revolut", "other", .bank_statement⟩),
   ("google", ⟨"Google", "software", .invoice⟩),
   ("amazon", ⟨"Amazon", "office supplies", .receipt⟩),
   ("uber", ⟨"Uber", "travel", .receipt⟩),
   ("netflix", ⟨"Netflix", "software", .invoice⟩),
   ("spotify", ⟨"Spotify", "software", .invoice⟩),
   ("apple", ⟨"Apple", "software", .invoice⟩),
   ("microsoft", ⟨"Microsoft", "software", .invoice⟩),
   ("aws", ⟨"Amazon Web Services", "software", .invoice⟩),
   ("azure", ⟨"Microsoft Azure", "software", .invoice⟩),
   ("dropbox", ⟨"Dropbox", "software", .invoice⟩),
   ("slack", ⟨"Slack", "software", .invoice⟩),
   ("zoom", ⟨"Zoom", "software", .invoice⟩),
   ("swisscom", ⟨"Swisscom", "telecommunications", .invoice⟩),
   ("sunrise", ⟨"Sunrise", "telecommunications", .invoice⟩),
   ("salt", ⟨"Salt", "telecommunications", .invoice⟩),
   ("migros", ⟨"Migros", "meals", .receipt⟩),
   ("coop", ⟨"Coop", "meals", .receipt⟩),
   ("aldi", ⟨"Aldi", "meals", .receipt⟩),
   ("lidl", ⟨"Lidl", "meals", .receipt⟩),
   ("sbb", ⟨"SBB", "travel", .receipt⟩),
   ("swiss", ⟨"Swiss Airlines", "travel", .receipt⟩),
   ("booking", ⟨"Booking.com", "travel", .receipt⟩),
   ("airbnb", ⟨"Airbnb", "travel", .receipt⟩),
   ("ikea", ⟨"IKEA", "office supplies", .receipt⟩),
   ("digitec", ⟨"Digitec", "office supplies", .receipt⟩),
   ("galaxus", ⟨"Galaxus", "office supplies", .receipt⟩),
   ("ubs", ⟨"UBS", "other", .bank_statement⟩),
   ("credit suisse", ⟨"Credit Suisse", "other", .bank_statement⟩),
   ("cs", ⟨"Credit Suisse", "other", .bank_statement⟩),
   ("postfinance", ⟨"PostFinance", "other", .bank_statement⟩),
   ("raiffeisen", ⟨"Raiffeisen", "other", .bank_statement⟩),
   ("wise", ⟨"Wise", "other", .bank_statement⟩),
   ("paypal", ⟨"PayPal", "other", .receipt⟩),
   ("stripe", ⟨"Stripe", "software", .invoice⟩),
   ("adobe", ⟨"Adobe", "software", .invoice⟩),
   ("figma", ⟨"Figma", "software", .invoice⟩),
   ("notion", ⟨"Notion", "software", .invoice⟩),
   ("github", ⟨"GitHub", "software", .invoice⟩),
   ("heroku", ⟨"Heroku", "software", .invoice⟩),
   ("vercel", ⟨"Vercel", "software", .invoice⟩),
   ("netlify", ⟨"Netlify", "software", .invoice⟩)]

/-- `extractVendorFromFilename` (lines 569-579): first vendor key contained
in the lowercased filename wins. -/
def extractVendorFromFilename (filename : String) : Option VendorInfo :=
  let cleaned := filename.toList.map Char.toLower
  (KNOWN_VENDORS.find? (fun p => isSubstring p.1.toList cleaned)).map Prod.snd

/-! ## Basic rounding facts -/

lemma abs_round2_sub_le (q : ℚ) : |round2 q - q| ≤ 1 / 200 := by
  have h1 : (Int.floor (q * 100 + 1 / 2) : ℚ) ≤ q * 100 + 1 / 2 := Int.floor_le _
  have h2 : q * 100 + 1 / 2 - 1 < (Int.floor (q * 100 + 1 / 2) : ℚ) :=
    Int.sub_one_lt_floor _
  rw [round2, abs_le]
  constructor <;> linarith

lemma round2_cents (n : ℤ) : round2 ((n : ℚ) / 100) = (n : ℚ) / 100 := by
  have h : (n : ℚ) / 100 * 100 + 1 / 2 = 1 / 2 + (n : ℚ) := by ring
  rw [round2, h, Int.floor_add_int]
  norm_num

/-! ## Claims C3, C4, C5 -/

/-- **C3** (amended): for a currency unknown to the rate table in use
(live or fallback), `convertToCHF` converts at rate 1 — it returns the
amount rounded to 2 decimal places, never `null` and never a failure; the
result equals the original amount whenever that amount is a whole number
of cents (in particular `convertToCHF(100, "XYZ") = 100`). -/
theorem convertToCHF_unknown_currency (rates : RateTable) (a : ℚ) (c : String)
    (hchf : toUpperAscii c ≠ "CHF")
    (hux : lookupRate rates (toUpperAscii c) = none) :
    convertToCHF rates (some a) (some c) = some (round2 a) ∧
      ∀ n : ℤ, a = (n : ℚ) / 100 → convertToCHF rates (some a) (some c) = some a := by
  have h : convertToCHF rates (some a) (some c) = some (round2 a) := by
    simp only [convertToCHF, hux, if_neg hchf]
  refine ⟨h, fun n hn => ?_⟩
  rw [h, hn, round2_cents]

/-- **C3 witness**: `convertToCHF(100, "XYZ")` against the fallback table is
`100`, not `null`. -/
theorem convertToCHF_unknown_currency_witness :
    convertToCHF FALLBACK_RATES (some 100) (some "XYZ") = some 100 := by
  have h := convertToCHF_unknown_currency FALLBACK_RATES 100 "XYZ"
    (by decide) (by decide)
  exact h.2 10000 (by norm_num)

/-- **C3 counterexample**: the claim's "returns the original amount
unchanged" fails for amounts finer than a cent: `convertToCHF(0.001, "XYZ")`
returns `0`, the 2-decimal rounding of the amount, not `0.001`. -/
theorem convertToCHF_unknown_currency_rounds :
    convertToCHF FALLBACK_RATES (some (1 / 1000)) (some "XYZ") = some 0 ∧
      (0 : ℚ) ≠ 1 / 1000 := by
  constructor
  · have h := (convertToCHF_unknown_currency FALLBACK_RATES (1 / 1000) "XYZ"
      (by decide) (by decide)).1
    rw [h]
    norm_num [round2]
  · norm_num

/-- **C4**: for every amount `a ≥ 0` and currency that uppercases to CHF,
`convertToCHF` returns `a` rounded to 2 decimals, and on nonnegative input
that rounding agrees with round-half-away-from-zero. -/
theorem convertToCHF_chf_rounds (rates : RateTable) (a : ℚ) (c : String)
    (ha : 0 ≤ a) (hc : toUpperAscii c = "CHF") :
    convertToCHF rates (some a) (some c) = some (round2 a) ∧
      round2 a = roundHalfAwayFromZero2 a := by
  constructor
  · simp [convertToCHF, hc]
  · rw [roundHalfAwayFromZero2, if_pos ha, round2]

/-- **C4 witness**: `convertToCHF(2.675, "chf")` is `2.68` (exact rationals:
the half-cent rounds up, away from zero). -/
theorem convertToCHF_chf_rounds_witness :
    convertToCHF FALLBACK_RATES (some (2.675 : ℚ)) (some "chf") = some 2.68 ∧
      roundHalfAwayFromZero2 (2.675 : ℚ) = 2.68 := by
  have h := convertToCHF_chf_rounds FALLBACK_RATES (2.675 : ℚ) "chf"
    (by norm_num) (by decide)
  have hv : round2 (2.675 : ℚ) = 2.68 := by norm_num [round2]
  exact ⟨h.1.trans (by rw [hv]), by rw [← h.2, hv]⟩

lemma roundtrip_error_bound (a r1 r2 : ℚ) (h1 : 0 < r1) (h2 : 0 < r2) :
    |round2 (round2 (round2 (round2 (a / r1) * r2) / r2) * r1) - a| ≤
      (1 + 2 * r1 + r1 / r2) / 200 := by
  set x1 := round2 (a / r1) with hx1
  set t1 := round2 (x1 * r2) with ht1
  set y := round2 (t1 / r2) with hy
  set t2 := round2 (y * r1) with ht2
  have e1 := abs_round2_sub_le (a / r1)
  have e2 := abs_round2_sub_le (x1 * r2)
  have e3 := abs_round2_sub_le (t1 / r2)
  have e4 := abs_round2_sub_le (y * r1)
  rw [abs_le] at e1 e2 e3 e4
  rw [abs_le]
  have hr1 : r1 ≠ 0 := ne_of_gt h1
  have hr2 : r2 ≠ 0 := ne_of_gt h2
  have key : t2 - a = (t2 - y * r1) + r1 * (y - t1 / r2) +
      (r1 / r2) * (t1 - x1 * r2) + r1 * (x1 - a / r1) := by
    field_simp
    ring
  have hq : (0 : ℚ) ≤ r1 / r2 := by positivity
  have b1u : r1 * (y - t1 / r2) ≤ r1 * (1 / 200) :=
    mul_le_mul_of_nonneg_left e3.2 h1.le
  have b1l : r1 * (-(1 / 200)) ≤ r1 * (y - t1 / r2) :=
    mul_le_mul_of_nonneg_left e3.1 h1.le
  have b2u : (r1 / r2) * (t1 - x1 * r2) ≤ (r1 / r2) * (1 / 200) :=
    mul_le_mul_of_nonneg_left e2.2 hq
  have b2l : (r1 / r2) * (-(1 / 200)) ≤ (r1 / r2) * (t1 - x1 * r2) :=
    mul_le_mul_of_nonneg_left e2.1 hq
  have b3u : r1 * (x1 - a / r1) ≤ r1 * (1 / 200) :=
    mul_le_mul_of_nonneg_left e1.2 h1.le
  have b3l : r1 * (-(1 / 200)) ≤ r1 * (x1 - a / r1) :=
    mul_le_mul_of_nonneg_left e1.1 h1.le
  constructor <;> nlinarith [e4.1, e4.2]

/-- **C5** (amended): the conversion round trip through a second table
currency returns to the original amount only up to a tolerance that scales
with the rates involved: for `c1, c2` in the table (neither CHF, distinct
after normalization) with positive rates `r1, r2`, both conversions succeed
and the round-trip error is at most `(1 + 2·r1 + r1/r2) / 200` — each of
the four 2-decimal roundings contributes up to half a cent, amplified by
the rate back into `c1` units.  A fixed 2-decimal tolerance does not hold
(see the counterexample). -/
theorem convertCurrency_roundtrip_bound (rates : RateTable) (a : ℚ)
    (c1 c2 : String) (r1 r2 : ℚ)
    (hl1 : lookupRate rates (toUpperAscii c1) = some r1) (h1 : 0 < r1)
    (hl2 : lookupRate rates (toUpperAscii c2) = some r2) (h2 : 0 < r2)
    (hc1 : toUpperAscii c1 ≠ "CHF") (hc2 : toUpperAscii c2 ≠ "CHF")
    (hne : toUpperAscii c1 ≠ toUpperAscii c2) :
    ∃ t1 t2, convertCurrency rates (some a) (some c1) c2 = some t1 ∧
      convertCurrency rates (some t1) (some c2) c1 = some t2 ∧
      |t2 - a| ≤ (1 + 2 * r1 + r1 / r2) / 200 := by
  have hr1 : r1 ≠ 0 := ne_of_gt h1
  have hr2 : r2 ≠ 0 := ne_of_gt h2
  have hto1 : convertToCHF rates (some a) (some c1) = some (round2 (a / r1)) := by
    simp only [convertToCHF, hl1, if_neg hc1, if_neg hr1]
  have hfwd : convertCurrency rates (some a) (some c1) c2 =
      some (round2 (round2 (a / r1) * r2)) := by
    simp only [convertCurrency, hto1, if_neg hne, if_neg hc2, hl2, if_neg hr2]
  set t1 := round2 (round2 (a / r1) * r2) with ht1
  have hto2 : convertToCHF rates (some t1) (some c2) = some (round2 (t1 / r2)) := by
    simp only [convertToCHF, hl2, if_neg hc2, if_neg hr2]
  have hbwd : convertCurrency rates (some t1) (some c2) c1 =
      some (round2 (round2 (t1 / r2) * r1)) := by
    simp only [convertCurrency, hto2, if_neg (Ne.symm hne), if_neg hc1, hl1,
      if_neg hr1]
  exact ⟨t1, round2 (round2 (t1 / r2) * r1), hfwd, hbwd,
    roundtrip_error_bound a r1 r2 h1 h2⟩

/-- **C5 witness**: the bound theorem applied to 100 EUR round-tripped
through HUF on the fallback table. -/
theorem convertCurrency_roundtrip_bound_witness :
    ∃ t1 t2, convertCurrency FALLBACK_RATES (some 100) (some "EUR") "HUF" = some t1 ∧
      convertCurrency FALLBACK_RATES (some t1) (some "HUF") "EUR" = some t2 ∧
      |t2 - 100| ≤ (1 + 2 * (19 / 20) + (19 / 20) / (13 / 5000)) / 200 := by
  have hEUR : toUpperAscii "EUR" = "EUR" := by decide
  have hHUF : toUpperAscii "HUF" = "HUF" := by decide
  exact convertCurrency_roundtrip_bound FALLBACK_RATES 100 "EUR" "HUF"
    (19 / 20) (13 / 5000)
    (by rw [hEUR]; simp [lookupRate, FALLBACK_RATES]; norm_num) (by norm_num)
    (by rw [hHUF]; simp [lookupRate, FALLBACK_RATES]; norm_num) (by norm_num)
    (by decide) (by decide) (by decide)

/-- **C5 counterexample**: with the fallback table, 100 EUR converted to HUF
and back yields 98.66, an error of 1.34 — far outside any fixed 2-decimal
rounding tolerance.  (HUF's rate 0.0026 makes the intermediate rounding to
0.27 HUF destroy most of the amount's precision.) -/
theorem convertCurrency_roundtrip_counterexample :
    convertCurrency FALLBACK_RATES (some 100) (some "EUR") "HUF" = some (27 / 100) ∧
      convertCurrency FALLBACK_RATES (some (27 / 100)) (some "HUF") "EUR" =
        some (4933 / 50) ∧
      ¬ |(4933 / 50 : ℚ) - 100| ≤ 1 / 100 := by
  have hEUR : toUpperAscii "EUR" = "EUR" := by decide
  have hHUF : toUpperAscii "HUF" = "HUF" := by decide
  have hl1 : lookupRate FALLBACK_RATES "EUR" = some (19 / 20) := by
    simp [lookupRate, FALLBACK_RATES]; norm_num
  have hl2 : lookupRate FALLBACK_RATES "HUF" = some (13 / 5000) := by
    simp [lookupRate, FALLBACK_RATES]; norm_num
  have habs : ¬ |(4933 / 50 : ℚ) - 100| ≤ 1 / 100 := by
    rw [show (4933 / 50 : ℚ) - 100 = -(67 / 50) by norm_num, abs_neg,
      abs_of_nonneg (by norm_num : (0 : ℚ) ≤ 67 / 50)]
    norm_num
  refine ⟨?_, ?_, habs⟩
  · simp only [convertCurrency, convertToCHF, hEUR, hHUF, hl1, hl2]
    simp [round2]
    norm_num
  · simp only [convertCurrency, convertToCHF, hEUR, hHUF, hl1, hl2]
    simp [round2]
    norm_num

/-! ## Batch-processor lemmas -/

lemma map_update_of_fresh (l : List ProcessedDocument) (i : String)
    (x : ProcessedDocument) (h : ∀ d ∈ l, d.id ≠ i) :
    l.map (fun d => if d.id = i then x else d) = l := by
  induction l with
  | nil => rfl
  | cons a t ih =>
      have ha : a.id ≠ i := h a (List.mem_cons_self a t)
      simp only [List.map_cons, if_neg ha]
      rw [ih (fun d hd => h d (List.mem_cons_of_mem a hd))]

lemma finalDoc_id (rates : RateTable) (j : FileJob) :
    (finalDoc rates j).id = j.id := by
  cases h : j.outcome <;> simp [finalDoc, h, placeholderDoc]

lemma finalDoc_status_of_error (rates : RateTable) (j : FileJob)
    (e : ExtractionFailure) (h : j.outcome = .error e) :
    (finalDoc rates j).status = .error ∧
      (finalDoc rates j).errorMessage = some (failureMessage e) := by
  simp [finalDoc, h, placeholderDoc]

lemma finalDoc_status_of_ok (rates : RateTable) (j : FileJob)
    (g : GatewayData) (h : j.outcome = .ok g) :
    (finalDoc rates j).status = .completed := by
  simp [finalDoc, h, placeholderDoc]

lemma finalDoc_status_ne_processing (rates : RateTable) (j : FileJob) :
    (finalDoc rates j).status ≠ .processing := by
  cases h : j.outcome <;> simp [finalDoc, h, placeholderDoc]

lemma processOne_documents (rates : RateTable) (st : StoreState) (j : FileJob)
    (h : ∀ d ∈ st.documents, d.id ≠ j.id) :
    (processOne rates st j).1.documents = finalDoc rates j :: st.documents := by
  show ((placeholderDoc j :: st.documents).map
      (fun d => if d.id = j.id then finalDoc rates j else d)) = _
  have hid : (placeholderDoc j).id = j.id := rfl
  rw [List.map_cons, if_pos hid, map_update_of_fresh st.documents j.id _ h]

lemma processFiles_store_eq (rates : RateTable) (jobs : List FileJob) :
    ∀ st : StoreState,
      (∀ j ∈ jobs, ∀ d ∈ st.documents, d.id ≠ j.id) →
      ((jobs.map FileJob.id).Nodup) →
      (processFiles rates st jobs).1.documents =
        (jobs.map (finalDoc rates)).reverse ++ st.documents := by
  induction jobs with
  | nil => intro st _ _; simp [processFiles]
  | cons j rest ih =>
      intro st hfresh hnodup
      have hone := processOne_documents rates st j
        (hfresh j (List.mem_cons_self j rest))
      have hrest :
          ∀ j' ∈ rest, ∀ d ∈ (processOne rates st j).1.documents, d.id ≠ j'.id := by
        intro j' hj' d hd
        rw [hone] at hd
        rcases List.mem_cons.mp hd with hfd | hold
        · rw [hfd, finalDoc_id]
          intro hcontra
          exact (List.nodup_cons.mp hnodup).1
            (hcontra ▸ List.mem_map_of_mem FileJob.id hj')
        · exact hfresh j' (List.mem_cons_of_mem j hj') d hold
      have hmain := ih (processOne rates st j).1 hrest
        (by simpa using (List.nodup_cons.mp (by simpa using hnodup)).2)
      show (processFiles rates (processOne rates st j).1 rest).1.documents = _
      rw [hmain, hone]
      simp

lemma processFiles_trace_eq (rates : RateTable) (jobs : List FileJob) :
    ∀ st : StoreState, (processFiles rates st jobs).2 = jobs.flatMap jobEvents := by
  induction jobs with
  | nil => intro st; rfl
  | cons j rest ih =>
      intro st
      show jobEvents j ++ (processFiles rates (processOne rates st j).1 rest).2 = _
      rw [ih, List.flatMap_cons]

/-! ## Claims C1 and C2 -/

/-- **C1 counterexample**: already for a 2-file batch (empty store, empty
rate table, both extractions succeeding), the second file's placeholder is
upserted only after the first file's extraction has started, and after
`processFiles` returns no record is still in status Processing — the claim's
"all N placeholders before any extraction, all Processing after submit"
fails. -/
theorem processFiles_batch_placeholders_counterexample :
    allPlaceholdersBeforeExtraction
      (processFiles [] ⟨[], none⟩
        [⟨"a", "a.pdf", "application/pdf", 0, true, true, .ok ⟨.invoice, emptyExtractedData⟩⟩,
         ⟨"b", "b.pdf", "application/pdf", 0, true, true, .ok ⟨.receipt, emptyExtractedData⟩⟩]).2
      = false ∧
    ((processFiles [] ⟨[], none⟩
        [⟨"a", "a.pdf", "application/pdf", 0, true, true, .ok ⟨.invoice, emptyExtractedData⟩⟩,
         ⟨"b", "b.pdf", "application/pdf", 0, true, true, .ok ⟨.receipt, emptyExtractedData⟩⟩]).1.documents.all
      (fun d => d.status = .processing)) = false := by
  constructor <;> rfl

/-- **C1** (amended): `processFiles` upserts each file's placeholder
(status Processing, all extracted fields null) immediately before that
file's own extraction begins — placeholders are interleaved with
processing, file by file, not all created up front; when it returns, the
store holds exactly one new record per file (most recent first, ahead of
the prior contents), and every new record has left status Processing. -/
theorem processFiles_batch_placeholders (rates : RateTable) (st : StoreState)
    (jobs : List FileJob)
    (hfresh : ∀ j ∈ jobs, ∀ d ∈ st.documents, d.id ≠ j.id)
    (hnodup : (jobs.map FileJob.id).Nodup) :
    (processFiles rates st jobs).2 = jobs.flatMap jobEvents ∧
    (∀ j, jobEvents j =
      [.upsertPlaceholder j.id, .extractStart j.id,
        match j.outcome with
        | .ok _ => .markCompleted j.id
        | .error _ => .markError j.id]) ∧
    (∀ j, (placeholderDoc j).status = .processing ∧
      (placeholderDoc j).extractedData = emptyExtractedData) ∧
    (processFiles rates st jobs).1.documents =
      (jobs.map (finalDoc rates)).reverse ++ st.documents ∧
    (processFiles rates st jobs).1.documents.length =
      jobs.length + st.documents.length ∧
    (∀ j ∈ jobs, (finalDoc rates j).status ≠ .processing) := by
  refine ⟨processFiles_trace_eq rates jobs st, fun j => rfl,
    fun j => ⟨rfl, rfl⟩, processFiles_store_eq rates jobs st hfresh hnodup,
    ?_, fun j _ => finalDoc_status_ne_processing rates j⟩
  rw [processFiles_store_eq rates jobs st hfresh hnodup]
  simp [Nat.add_comm]

/-- **C1 witness**: the amended theorem applied to a concrete 2-file batch
over an empty store. -/
theorem processFiles_batch_placeholders_witness :
    (processFiles FALLBACK_RATES ⟨[], none⟩
        [⟨"w1", "one.pdf", "application/pdf", 3, true, true, .ok ⟨.invoice, emptyExtractedData⟩⟩,
         ⟨"w2", "two.png", "image/png", 4, true, true,
           .error (.unavailable "Processing failed")⟩]).2 =
      [⟨"w1", "one.pdf", "application/pdf", 3, true, true, .ok ⟨.invoice, emptyExtractedData⟩⟩,
         ⟨"w2", "two.png", "image/png", 4, true, true,
           .error (.unavailable "Processing failed")⟩].flatMap jobEvents ∧
    (∀ j, jobEvents j =
      [.upsertPlaceholder j.id, .extractStart j.id,
        match j.outcome with
        | .ok _ => .markCompleted j.id
        | .error _ => .markError j.id]) ∧
    (∀ j, (placeholderDoc j).status = .processing ∧
      (placeholderDoc j).extractedData = emptyExtractedData) ∧
    (processFiles FALLBACK_RATES ⟨[], none⟩
        [⟨"w1", "one.pdf", "application/pdf", 3, true, true, .ok ⟨.invoice, emptyExtractedData⟩⟩,
         ⟨"w2", "two.png", "image/png", 4, true, true,
           .error (.unavailable "Processing failed")⟩]).1.documents =
      ([⟨"w1", "one.pdf", "application/pdf", 3, true, true, .ok ⟨.invoice, emptyExtractedData⟩⟩,
         ⟨"w2", "two.png", "image/png", 4, true, true,
           .error (.unavailable "Processing failed")⟩].map
        (finalDoc FALLBACK_RATES)).reverse ++ [] ∧
    (processFiles FALLBACK_RATES ⟨[], none⟩
        [⟨"w1", "one.pdf", "application/pdf", 3, true, true, .ok ⟨.invoice, emptyExtractedData⟩⟩,
         ⟨"w2", "two.png", "image/png", 4, true, true,
           .error (.unavailable "Processing failed")⟩]).1.documents.length = 2 + 0 ∧
    (∀ j ∈ [⟨"w1", "one.pdf", "application/pdf", 3, true, true, .ok ⟨.invoice, emptyExtractedData⟩⟩,
         ⟨"w2", "two.png", "image/png", 4, true, true,
           .error (.unavailable "Processing failed")⟩],
      (finalDoc FALLBACK_RATES j).status ≠ .processing) :=
  processFiles_batch_placeholders FALLBACK_RATES ⟨[], none⟩ _
    (by intro j _ d hd; simp at hd) (by decide)

/-- **C2 counterexample**: a 5-file batch whose second file fails with the
QuotaExhausted error (the edge function's 402 message) does not halt: files
3-5 are processed to completion, not left in status Processing. -/
theorem processFiles_quota_counterexample :
    ((processFiles [] ⟨[], none⟩
        [⟨"f1", "1.pdf", "application/pdf", 0, true, true, .ok ⟨.invoice, emptyExtractedData⟩⟩,
         ⟨"f2", "2.pdf", "application/pdf", 0, true, true,
           .error (.quotaExhausted "AI credits depleted. Please add more credits.")⟩,
         ⟨"f3", "3.pdf", "application/pdf", 0, true, true, .ok ⟨.receipt, emptyExtractedData⟩⟩,
         ⟨"f4", "4.pdf", "application/pdf", 0, true, true, .ok ⟨.receipt, emptyExtractedData⟩⟩,
         ⟨"f5", "5.pdf", "application/pdf", 0, true, true, .ok ⟨.invoice, emptyExtractedData⟩⟩]).1.documents.map
      (fun d => (d.id, d.status))) =
      [("f5", .completed), ("f4", .completed), ("f3", .completed),
       ("f2", .error), ("f1", .completed)] ∧
    ¬ (∀ d ∈ (processFiles [] ⟨[], none⟩
        [⟨"f1", "1.pdf", "application/pdf", 0, true, true, .ok ⟨.invoice, emptyExtractedData⟩⟩,
         ⟨"f2", "2.pdf", "application/pdf", 0, true, true,
           .error (.quotaExhausted "AI credits depleted. Please add more credits.")⟩,
         ⟨"f3", "3.pdf", "application/pdf", 0, true, true, .ok ⟨.receipt, emptyExtractedData⟩⟩,
         ⟨"f4", "4.pdf", "application/pdf", 0, true, true, .ok ⟨.receipt, emptyExtractedData⟩⟩,
         ⟨"f5", "5.pdf", "application/pdf", 0, true, true, .ok ⟨.invoice, emptyExtractedData⟩⟩]).1.documents,
        d.id = "f3" ∨ d.id = "f4" ∨ d.id = "f5" → d.status = .processing) := by
  exact ⟨rfl, by decide⟩

/-- **C2** (amended): every per-file extraction failure — QuotaExhausted
included — marks that one record Error with the failure's message, and the
processor continues with every remaining file; the batch never halts early,
and after `processFiles` returns no new record is left in status
Processing. -/
theorem processFiles_continues_after_quota (rates : RateTable)
    (st : StoreState) (jobs : List FileJob)
    (hfresh : ∀ j ∈ jobs, ∀ d ∈ st.documents, d.id ≠ j.id)
    (hnodup : (jobs.map FileJob.id).Nodup) :
    (processFiles rates st jobs).1.documents =
      (jobs.map (finalDoc rates)).reverse ++ st.documents ∧
    (∀ j ∈ jobs, ∀ e, j.outcome = .error e →
      (finalDoc rates j).status = .error ∧
        (finalDoc rates j).errorMessage = some (failureMessage e)) ∧
    (∀ j ∈ jobs, ∀ g, j.outcome = .ok g →
      (finalDoc rates j).status = .completed) ∧
    (∀ j ∈ jobs, (finalDoc rates j).status ≠ .processing) :=
  ⟨processFiles_store_eq rates jobs st hfresh hnodup,
    fun j _ e he => finalDoc_status_of_error rates j e he,
    fun j _ g hg => finalDoc_status_of_ok rates j g hg,
    fun j _ => finalDoc_status_ne_processing rates j⟩

/-- **C2 witness**: the amended theorem applied to the 5-file batch with a
QuotaExhausted failure on file 2. -/
theorem processFiles_continues_after_quota_witness :
    (processFiles FALLBACK_RATES ⟨[], none⟩
        [⟨"g1", "1.pdf", "application/pdf", 0, true, true, .ok ⟨.invoice, emptyExtractedData⟩⟩,
         ⟨"g2", "2.pdf", "application/pdf", 0, true, true,
           .error (.quotaExhausted "AI credits depleted. Please add more credits.")⟩,
         ⟨"g3", "3.pdf", "application/pdf", 0, true, true, .ok ⟨.receipt, emptyExtractedData⟩⟩,
         ⟨"g4", "4.pdf", "application/pdf", 0, true, true, .ok ⟨.receipt, emptyExtractedData⟩⟩,
         ⟨"g5", "5.pdf", "application/pdf", 0, true, true, .ok ⟨.invoice, emptyExtractedData⟩⟩]).1.documents =
      ([⟨"g1", "1.pdf", "application/pdf", 0, true, true, .ok ⟨.invoice, emptyExtractedData⟩⟩,
         ⟨"g2", "2.pdf", "application/pdf", 0, true, true,
           .error (.quotaExhausted "AI credits depleted. Please add more credits.")⟩,
         ⟨"g3", "3.pdf", "application/pdf", 0, true, true, .ok ⟨.receipt, emptyExtractedData⟩⟩,
         ⟨"g4", "4.pdf", "application/pdf", 0, true, true, .ok ⟨.receipt, emptyExtractedData⟩⟩,
         ⟨"g5", "5.pdf", "application/pdf", 0, true, true, .ok ⟨.invoice, emptyExtractedData⟩⟩].map
        (finalDoc FALLBACK_RATES)).reverse ++ [] ∧
    (∀ j ∈ [⟨"g1", "1.pdf", "application/pdf", 0, true, true, .ok ⟨.invoice, emptyExtractedData⟩⟩,
         ⟨"g2", "2.pdf", "application/pdf", 0, true, true,
           .error (.quotaExhausted "AI credits depleted. Please add more credits.")⟩,
         ⟨"g3", "3.pdf", "application/pdf", 0, true, true, .ok ⟨.receipt, emptyExtractedData⟩⟩,
         ⟨"g4", "4.pdf", "application/pdf", 0, true, true, .ok ⟨.receipt, emptyExtractedData⟩⟩,
         ⟨"g5", "5.pdf", "application/pdf", 0, true, true, .ok ⟨.invoice, emptyExtractedData⟩⟩],
      ∀ e, j.outcome = .error e →
        (finalDoc FALLBACK_RATES j).status = .error ∧
          (finalDoc FALLBACK_RATES j).errorMessage = some (failureMessage e)) ∧
    (∀ j ∈ [⟨"g1", "1.pdf", "application/pdf", 0, true, true, .ok ⟨.invoice, emptyExtractedData⟩⟩,
         ⟨"g2", "2.pdf", "application/pdf", 0, true, true,
           .error (.quotaExhausted "AI credits depleted. Please add more credits.")⟩,
         ⟨"g3", "3.pdf", "application/pdf", 0, true, true, .ok ⟨.receipt, emptyExtractedData⟩⟩,
         ⟨"g4", "4.pdf", "application/pdf", 0, true, true, .ok ⟨.receipt, emptyExtractedData⟩⟩,
         ⟨"g5", "5.pdf", "application/pdf", 0, true, true, .ok ⟨.invoice, emptyExtractedData⟩⟩],
      ∀ g, j.outcome = .ok g → (finalDoc FALLBACK_RATES j).status = .completed) ∧
    (∀ j ∈ [⟨"g1", "1.pdf", "application/pdf", 0, true, true, .ok ⟨.invoice, emptyExtractedData⟩⟩,
         ⟨"g2", "2.pdf", "application/pdf", 0, true, true,
           .error (.quotaExhausted "AI credits depleted. Please add more credits.")⟩,
         ⟨"g3", "3.pdf", "application/pdf", 0, true, true, .ok ⟨.receipt, emptyExtractedData⟩⟩,
         ⟨"g4", "4.pdf", "application/pdf", 0, true, true, .ok ⟨.receipt, emptyExtractedData⟩⟩,
         ⟨"g5", "5.pdf", "application/pdf", 0, true, true, .ok ⟨.invoice, emptyExtractedData⟩⟩],
      (finalDoc FALLBACK_RATES j).status ≠ .processing) :=
  processFiles_continues_after_quota FALLBACK_RATES ⟨[], none⟩ _
    (by intro j _ d hd; simp at hd) (by decide)

/-! ## Rate-table lemmas for claim C6 -/

lemma hasKey_false_lookup_none (t : RateTable) (c : String)
    (h : hasKey t c = false) : lookupRate t c = none := by
  induction t with
  | nil => rfl
  | cons p rest ih =>
      obtain ⟨k, w⟩ := p
      simp only [hasKey, Bool.or_eq_false_iff, decide_eq_false_iff_not] at h
      simp only [lookupRate, if_neg h.1]
      exact ih h.2

lemma lookupRate_overwrite_self (t : RateTable) (c : String) (v : ℚ)
    (h : hasKey t c = true) :
    lookupRate (t.map (fun p => if p.1 = c then (c, v) else p)) c = some v := by
  induction t with
  | nil => simp [hasKey] at h
  | cons p rest ih =>
      obtain ⟨k, w⟩ := p
      simp only [List.map_cons]
      by_cases hk : k = c
      · rw [show (if (k, w).1 = c then (c, v) else (k, w)) = (c, v) from if_pos hk]
        simp only [lookupRate, if_pos rfl, if_true]
      · rw [show (if (k, w).1 = c then (c, v) else (k, w)) = (k, w) from if_neg hk]
        simp only [lookupRate, if_neg hk]
        simp only [hasKey, Bool.or_eq_true, decide_eq_true_eq] at h
        exact ih (h.resolve_left hk)

lemma lookupRate_overwrite_ne (t : RateTable) (c : String) (v : ℚ) (d : String)
    (hd : d ≠ c) :
    lookupRate (t.map (fun p => if p.1 = c then (c, v) else p)) d =
      lookupRate t d := by
  induction t with
  | nil => rfl
  | cons p rest ih =>
      obtain ⟨k, w⟩ := p
      simp only [List.map_cons]
      by_cases hk : k = c
      · rw [show (if (k, w).1 = c then (c, v) else (k, w)) = (c, v) from if_pos hk]
        simp only [lookupRate, if_neg (fun h : c = d => hd h.symm),
          if_neg (fun h : k = d => hd (hk ▸ h).symm)]
        exact ih
      · rw [show (if (k, w).1 = c then (c, v) else (k, w)) = (k, w) from if_neg hk]
        by_cases hkd : k = d
        · simp only [lookupRate, if_pos hkd]
        · simp only [lookupRate, if_neg hkd]
          exact ih

lemma lookupRate_append_self (t : RateTable) (c : String) (v : ℚ)
    (h : hasKey t c = false) :
    lookupRate (t ++ [(c, v)]) c = some v := by
  induction t with
  | nil => simp only [List.nil_append, lookupRate, if_pos rfl, if_true]
  | cons p rest ih =>
      obtain ⟨k, w⟩ := p
      simp only [hasKey, Bool.or_eq_false_iff, decide_eq_false_iff_not] at h
      simp only [List.cons_append, lookupRate, if_neg h.1]
      exact ih h.2

lemma lookupRate_append_ne (t : RateTable) (c : String) (v : ℚ) (d : String)
    (hd : d ≠ c) :
    lookupRate (t ++ [(c, v)]) d = lookupRate t d := by
  induction t with
  | nil => simp only [List.nil_append, lookupRate, if_neg (fun h : c = d => hd h.symm)]
  | cons p rest ih =>
      obtain ⟨k, w⟩ := p
      by_cases hk : k = d
      · simp only [List.cons_append, lookupRate, if_pos hk]
      · simp only [List.cons_append, lookupRate, if_neg hk]
        exact ih

lemma lookupRate_insertRate_self (t : RateTable) (c : String) (v : ℚ) :
    lookupRate (insertRate t c v) c = some v := by
  rw [insertRate]
  by_cases h : hasKey t c = true
  · rw [if_pos h]
    exact lookupRate_overwrite_self t c v h
  · rw [if_neg h]
    exact lookupRate_append_self t c v (by simpa using h)

lemma lookupRate_insertRate_ne (t : RateTable) (c : String) (v : ℚ)
    (d : String) (hd : d ≠ c) :
    lookupRate (insertRate t c v) d = lookupRate t d := by
  rw [insertRate]
  by_cases h : hasKey t c = true
  · rw [if_pos h]
    exact lookupRate_overwrite_ne t c v d hd
  · rw [if_neg h]
    exact lookupRate_append_ne t c v d hd

lemma parseFetched_loop_chf (entries : List (String × ℚ)) :
    ∀ acc : RateTable, lookupRate acc "CHF" = some 1 →
      (∀ p ∈ entries, p.1 = "CHF" → p.2 = 1) →
      lookupRate
        (entries.foldl (fun acc p => insertRate acc p.1 (1 / p.2)) acc) "CHF" =
        some 1 := by
  induction entries with
  | nil => intro acc hacc _; exact hacc
  | cons p rest ih =>
      intro acc hacc hgood
      simp only [List.foldl_cons]
      refine ih _ ?_ (fun q hq hqc => hgood q (List.mem_cons_of_mem p hq) hqc)
      by_cases hp : p.1 = "CHF"
      · have h1 : p.2 = 1 := hgood p (List.mem_cons_self p rest) hp
        rw [hp, h1]
        simpa using lookupRate_insertRate_self acc "CHF" 1
      · rw [lookupRate_insertRate_ne acc p.1 (1 / p.2) "CHF"
          (fun hc => hp hc.symm)]
        exact hacc

/-- Under the provider contract (base currency CHF, so a CHF entry in the
response, if any, carries rate 1 — spec section 6), a parsed live table
maps CHF to 1. -/
lemma parseFetchedRates_chf (entries : List (String × ℚ))
    (h : ∀ p ∈ entries, p.1 = "CHF" → p.2 = 1) :
    lookupRate (parseFetchedRates entries) "CHF" = some 1 :=
  parseFetched_loop_chf entries [("CHF", 1)] (by simp [lookupRate]) h

lemma ne_nil_of_lookup (t : RateTable) (c : String) (w : ℚ)
    (h : lookupRate t c = some w) : t ≠ [] := by
  intro ht
  subst ht
  simp [lookupRate] at h

lemma lookupRate_fallback_chf : lookupRate FALLBACK_RATES "CHF" = some 1 := by
  simp [lookupRate, FALLBACK_RATES]

/-! ## Claim C6 -/

/-- **C6**: `getExchangeRates` is a total function of its cache state,
clock and fetch outcome — the caller never observes a failure: a cache
fetched within the 1-hour window is returned as is; otherwise a successful
refresh is returned (and cached); otherwise the static fallback table is
returned.  Under the cache invariant (every cached table came from a parse)
and the provider contract (CHF base), every table it returns maps CHF to
rate 1 and is never empty, and the invariant is preserved. -/
theorem getExchangeRates_never_fails (st : RatesCache) (now : ℤ)
    (resp : Option (List (String × ℚ)))
    (hcache : ∀ t, st.ratesCache = some t → lookupRate t "CHF" = some 1)
    (hresp : ∀ entries, resp = some entries →
      ∀ p ∈ entries, p.1 = "CHF" → p.2 = 1) :
    lookupRate (getExchangeRates st now resp).1 "CHF" = some 1 ∧
    (getExchangeRates st now resp).1 ≠ [] ∧
    (∀ t, (getExchangeRates st now resp).2.ratesCache = some t →
      lookupRate t "CHF" = some 1) ∧
    (∀ cached, st.ratesCache = some cached →
      now - st.cacheTimestamp < CACHE_DURATION →
      getExchangeRates st now resp = (cached, st)) ∧
    ((st.ratesCache = none ∨ ¬ now - st.cacheTimestamp < CACHE_DURATION) →
      (resp = none → getExchangeRates st now resp = (FALLBACK_RATES, st)) ∧
      (∀ entries, resp = some entries →
        getExchangeRates st now resp =
          (parseFetchedRates entries,
            ⟨some (parseFetchedRates entries), now⟩))) := by
  obtain ⟨cache, ts⟩ := st
  cases cache with
  | none =>
      cases resp with
      | none =>
          have heq : getExchangeRates ⟨none, ts⟩ now none =
              (FALLBACK_RATES, ⟨none, ts⟩) := rfl
          rw [heq]
          refine ⟨lookupRate_fallback_chf,
            ne_nil_of_lookup _ _ _ lookupRate_fallback_chf,
            hcache, ?_, ?_⟩
          · intro cached hc
            simp at hc
          · exact fun _ => ⟨fun _ => rfl, fun entries he => by simp at he⟩
      | some entries =>
          have hgood := hresp entries rfl
          have heq : getExchangeRates ⟨none, ts⟩ now (some entries) =
              (parseFetchedRates entries,
                ⟨some (parseFetchedRates entries), now⟩) := rfl
          rw [heq]
          have hchf := parseFetchedRates_chf entries hgood
          refine ⟨hchf, ne_nil_of_lookup _ _ _ hchf, ?_, ?_, ?_⟩
          · intro t ht
            simp only [Option.some_inj] at ht
            rw [← ht]
            exact hchf
          · intro cached hc
            simp at hc
          · refine fun _ => ⟨fun hn => by simp at hn, fun e he => ?_⟩
            simp only [Option.some_inj] at he
            rw [← he]
  | some c0 =>
      have hc0 : lookupRate c0 "CHF" = some 1 := hcache c0 rfl
      by_cases hfresh : now - ts < CACHE_DURATION
      · have heq : getExchangeRates ⟨some c0, ts⟩ now resp = (c0, ⟨some c0, ts⟩) := by
          simp [getExchangeRates, hfresh]
        rw [heq]
        refine ⟨hc0, ne_nil_of_lookup _ _ _ hc0, hcache, ?_, ?_⟩
        · intro cached hc _
          simp only [Option.some_inj] at hc
          rw [hc]
        · intro habs
          rcases habs with h | h
          · simp at h
          · exact absurd hfresh h
      · cases resp with
        | none =>
            have heq : getExchangeRates ⟨some c0, ts⟩ now none =
                (FALLBACK_RATES, ⟨some c0, ts⟩) := by
              simp [getExchangeRates, hfresh, fetchExchangeRates]
            rw [heq]
            refine ⟨lookupRate_fallback_chf,
              ne_nil_of_lookup _ _ _ lookupRate_fallback_chf,
              hcache, ?_, ?_⟩
            · intro cached hc hf
              exact absurd hf hfresh
            · exact fun _ => ⟨fun _ => rfl, fun entries he => by simp at he⟩
        | some entries =>
            have hgood := hresp entries rfl
            have heq : getExchangeRates ⟨some c0, ts⟩ now (some entries) =
                (parseFetchedRates entries,
                  ⟨some (parseFetchedRates entries), now⟩) := by
              simp [getExchangeRates, hfresh, fetchExchangeRates]
            rw [heq]
            have hchf := parseFetchedRates_chf entries hgood
            refine ⟨hchf, ne_nil_of_lookup _ _ _ hchf, ?_, ?_, ?_⟩
            · intro t ht
              simp only [Option.some_inj] at ht
              rw [← ht]
              exact hchf
            · intro cached hc hf
              exact absurd hf hfresh
            · refine fun _ => ⟨fun hn => by simp at hn, fun e he => ?_⟩
              simp only [Option.some_inj] at he
              rw [← he]

/-- **C6 witness**: the theorem applied to a cold cache, a clock of 7 and a
successful fetch of one EUR entry. -/
theorem getExchangeRates_never_fails_witness :
    lookupRate (getExchangeRates ⟨none, 0⟩ 7 (some [("EUR", 21 / 20)])).1 "CHF" =
      some 1 ∧
    (getExchangeRates ⟨none, 0⟩ 7 (some [("EUR", 21 / 20)])).1 ≠ [] ∧
    (∀ t, (getExchangeRates ⟨none, 0⟩ 7 (some [("EUR", 21 / 20)])).2.ratesCache =
        some t → lookupRate t "CHF" = some 1) ∧
    (∀ cached, (⟨none, 0⟩ : RatesCache).ratesCache = some cached →
      7 - (⟨none, 0⟩ : RatesCache).cacheTimestamp < CACHE_DURATION →
      getExchangeRates ⟨none, 0⟩ 7 (some [("EUR", 21 / 20)]) = (cached, ⟨none, 0⟩)) ∧
    (((⟨none, 0⟩ : RatesCache).ratesCache = none ∨
        ¬ 7 - (⟨none, 0⟩ : RatesCache).cacheTimestamp < CACHE_DURATION) →
      ((some [("EUR", 21 / 20)] : Option (List (String × ℚ))) = none →
        getExchangeRates ⟨none, 0⟩ 7 (some [("EUR", 21 / 20)]) =
          (FALLBACK_RATES, ⟨none, 0⟩)) ∧
      (∀ entries, (some [("EUR", 21 / 20)] : Option (List (String × ℚ))) =
          some entries →
        getExchangeRates ⟨none, 0⟩ 7 (some [("EUR", 21 / 20)]) =
          (parseFetchedRates entries,
            ⟨some (parseFetchedRates entries), 7⟩))) :=
  getExchangeRates_never_fails ⟨none, 0⟩ 7 (some [("EUR", 21 / 20)])
    (fun t ht => by simp at ht)
    (by
      intro entries he
      cases he
      intro p hp hpc
      simp only [List.mem_singleton] at hp
      subst hp
      simp at hpc)

/-! ## Claim C7 -/

/-- **C7 counterexample**: the claimed unconditional snapshot=memory
equality fails when `localStorage.setItem` throws — the catch in
`saveDocumentsToLocalStorage` swallows the error, so inserting a
placeholder with a failed local write updates memory while the storage key
stays absent: the reconstructed snapshot is `[]`, not the one-record
list. -/
theorem applyMutation_failed_write_counterexample :
    (applyMutation
        (.insertPlaceholder ⟨"c7", "c7.pdf", "application/pdf", 0, false, true,
          .error (.unavailable "Processing failed")⟩)
        false true ⟨[], none⟩).documents =
      [placeholderDoc ⟨"c7", "c7.pdf", "application/pdf", 0, false, true,
          .error (.unavailable "Processing failed")⟩] ∧
    (applyMutation
        (.insertPlaceholder ⟨"c7", "c7.pdf", "application/pdf", 0, false, true,
          .error (.unavailable "Processing failed")⟩)
        false true ⟨[], none⟩).storage = none ∧
    loadLocalSnapshot (applyMutation
        (.insertPlaceholder ⟨"c7", "c7.pdf", "application/pdf", 0, false, true,
          .error (.unavailable "Processing failed")⟩)
        false true ⟨[], none⟩).storage ≠
      (applyMutation
        (.insertPlaceholder ⟨"c7", "c7.pdf", "application/pdf", 0, false, true,
          .error (.unavailable "Processing failed")⟩)
        false true ⟨[], none⟩).documents := by
  refine ⟨rfl, rfl, ?_⟩
  intro h
  exact List.noConfusion h

/-- **C7** (amended): every store mutation — placeholder insertion,
completion/error update, single delete, clear-all — updates the in-memory
list unconditionally, and *when the localStorage write succeeds* the
persisted snapshot (as reconstructed from the storage key) equals the new
in-memory list the moment the mutation completes (clear-all removes the
key, which loads back as the empty list); a thrown localStorage write is
swallowed and leaves the snapshot stale while the in-memory mutation still
applies; and the outcome of the best-effort remote mirror write has no
influence on the resulting local state: a failed Supabase write neither
rolls back nor blocks the local mutation. -/
theorem applyMutation_persists_locally (m : StoreMutation) (st : StoreState)
    (localWriteOk remoteOk remoteOk' : Bool) :
    (localWriteOk = true →
      loadLocalSnapshot (applyMutation m localWriteOk remoteOk st).storage =
        (applyMutation m localWriteOk remoteOk st).documents) ∧
    applyMutation m localWriteOk remoteOk st =
      applyMutation m localWriteOk remoteOk' st ∧
    (applyMutation m localWriteOk remoteOk st).documents =
      (applyMutation m true remoteOk st).documents := by
  refine ⟨fun hw => ?_, ?_, ?_⟩
  · subst hw
    cases m <;>
      simp [applyMutation, upsertPrepend, updateById,
        saveDocumentsToLocalStorage, loadLocalSnapshot]
  · cases m <;> rfl
  · cases m <;> rfl

/-- **C7 witness**: the amended theorem at a concrete update mutation with
a succeeding local write (and both remote outcomes), hypothesis
discharged. -/
theorem applyMutation_persists_locally_witness :
    loadLocalSnapshot (applyMutation
        (.updateRecord "c7w" (placeholderDoc ⟨"c7w", "w.pdf", "application/pdf",
          1, true, true, .error (.unavailable "Processing failed")⟩))
        true false ⟨[], some []⟩).storage =
      (applyMutation
        (.updateRecord "c7w" (placeholderDoc ⟨"c7w", "w.pdf", "application/pdf",
          1, true, true, .error (.unavailable "Processing failed")⟩))
        true false ⟨[], some []⟩).documents ∧
    applyMutation
        (.updateRecord "c7w" (placeholderDoc ⟨"c7w", "w.pdf", "application/pdf",
          1, true, true, .error (.unavailable "Processing failed")⟩))
        true false ⟨[], some []⟩ =
      applyMutation
        (.updateRecord "c7w" (placeholderDoc ⟨"c7w", "w.pdf", "application/pdf",
          1, true, true, .error (.unavailable "Processing failed")⟩))
        true true ⟨[], some []⟩ ∧
    (applyMutation
        (.updateRecord "c7w" (placeholderDoc ⟨"c7w", "w.pdf", "application/pdf",
          1, true, true, .error (.unavailable "Processing failed")⟩))
        true false ⟨[], some []⟩).documents =
      (applyMutation
        (.updateRecord "c7w" (placeholderDoc ⟨"c7w", "w.pdf", "application/pdf",
          1, true, true, .error (.unavailable "Processing failed")⟩))
        true false ⟨[], some []⟩).documents := by
  have h := applyMutation_persists_locally
    (.updateRecord "c7w" (placeholderDoc ⟨"c7w", "w.pdf", "application/pdf",
      1, true, true, .error (.unavailable "Processing failed")⟩))
    ⟨[], some []⟩ true false true
  exact ⟨h.1 rfl, h.2.1, h.2.2⟩

/-! ## Claim C8 -/

/-- **C8** (the code contradicts it): an extracted or stored numeric field
whose value is 0 is *not* preserved — the edge function's `|| null`
normalization and `loadDocuments`'s ternary truthiness guard both collapse
0 to null.  A sanitized gateway response with `vatAmount = 0` comes back
with `vatAmount = null` (while its CHF mirror, computed from the raw value,
is 0). -/
theorem zero_field_collapsed_to_null :
    orNullNum (some 0) = none ∧
    loadNumericField (some 0) = none ∧
    (sanitizeGatewayResult (some .receipt)
        { emptyExtractedData with
            vatAmount := some 0,
            originalCurrency := some "CHF" }).extractedData.vatAmount = none ∧
    (sanitizeGatewayResult (some .receipt)
        { emptyExtractedData with
            vatAmount := some 0,
            originalCurrency := some "CHF" }).extractedData.vatAmountCHF = some 0 := by
  refine ⟨by simp [orNullNum], by simp [loadNumericField], by simp [sanitizeGatewayResult, orNullNum, emptyExtractedData], ?_⟩
  simp only [sanitizeGatewayResult, serverConvertToCHF, emptyExtractedData]
  norm_num [round2, toUpperAscii, lookupRate, conversionRates]

/-! ## Claim C9 -/

/-- **C9 counterexample**: an upstream HTTP 403 is not classified as
QuotaExhausted (402) — it falls into the generic `throw`/catch-all path and
is answered with status 500. -/
theorem classifyUpstreamStatus_403_counterexample :
    classifyUpstreamStatus 403 = some ⟨500, "AI gateway error: 403"⟩ ∧
      (classifyUpstreamStatus 403).map ErrorResponse.status ≠ some 402 := by
  constructor <;> decide

/-- **C9** (amended): for every non-2xx upstream status the Extraction
Gateway answers with an error response; that response has status 429
(RateLimited) exactly when the upstream status is 429, status 402
(QuotaExhausted) exactly when the upstream status is 402, and every other
non-2xx upstream status — 403 included — is answered as a generic failure
with status 500. -/
theorem classifyUpstreamStatus_spec (s : ℕ) (h2xx : ¬(200 ≤ s ∧ s ≤ 299)) :
    (∃ e, classifyUpstreamStatus s = some e) ∧
    (∀ e, classifyUpstreamStatus s = some e →
      ((e.status = 429 ↔ s = 429) ∧ (e.status = 402 ↔ s = 402) ∧
        (s ≠ 429 → s ≠ 402 → e.status = 500))) := by
  rw [classifyUpstreamStatus, if_neg h2xx]
  by_cases h429 : s = 429
  · subst h429
    rw [if_pos rfl]
    refine ⟨⟨_, rfl⟩, fun e he => ?_⟩
    rw [Option.some_inj] at he
    subst he
    exact ⟨by simp, by simp, fun h _ => absurd rfl h⟩
  · rw [if_neg h429]
    by_cases h402 : s = 402
    · subst h402
      rw [if_pos rfl]
      refine ⟨⟨_, rfl⟩, fun e he => ?_⟩
      rw [Option.some_inj] at he
      subst he
      exact ⟨by simp [h429], by simp, fun _ h => absurd rfl h⟩
    · rw [if_neg h402]
      refine ⟨⟨_, rfl⟩, fun e he => ?_⟩
      rw [Option.some_inj] at he
      subst he
      exact ⟨by simp [h429], by simp [h402], fun _ _ => rfl⟩

/-- **C9 witness**: the classification theorem applied to upstream status
403. -/
theorem classifyUpstreamStatus_spec_witness :
    (∃ e, classifyUpstreamStatus 403 = some e) ∧
    (∀ e, classifyUpstreamStatus 403 = some e →
      ((e.status = 429 ↔ (403 : ℕ) = 429) ∧ (e.status = 402 ↔ (403 : ℕ) = 402) ∧
        ((403 : ℕ) ≠ 429 → (403 : ℕ) ≠ 402 → e.status = 500))) :=
  classifyUpstreamStatus_spec 403 (by decide)

/-! ## Claim C10 -/

/-- **C10**: on the filename `invoice_UBER_2024-03-15_CHF45.90.pdf` the
heuristics extract the ISO date `2024-03-15`, the amount `45.90` with
currency `CHF`, and the vendor entry for `uber` (issuer Uber, category
travel, document type receipt) — the vendor lookup wins even though the
filename also contains the keyword `invoice` (last conjunct). -/
theorem filename_heuristics_scenario :
    extractDateFromFilename "invoice_UBER_2024-03-15_CHF45.90.pdf" =
      some "2024-03-15" ∧
    extractAmountFromFilename "invoice_UBER_2024-03-15_CHF45.90.pdf" =
      (some (459 / 10), "CHF") ∧
    extractVendorFromFilename "invoice_UBER_2024-03-15_CHF45.90.pdf" =
      some ⟨"Uber", "travel", .receipt⟩ ∧
    isSubstring "invoice".toList
      ("invoice_UBER_2024-03-15_CHF45.90.pdf".toList.map Char.toLower) = true := by
  refine ⟨by decide, ?_, by decide, by decide⟩
  have hclean :
      (stripExtension ("invoice_UBER_2024-03-15_CHF45.90.pdf").toList).map
        Char.toLower = "invoice_uber_2024-03-15_chf45.90".toList := by decide
  have hscan : scanFirst matchPat1At ("invoice_uber_2024-03-15_chf45.90".toList)
      = some "45.90".toList := by decide
  have hcur : detectCurrency ("invoice_uber_2024-03-15_chf45.90".toList) =
      "CHF" := by decide
  have hparse : parseAmountStr ("45.90".toList) = 459 / 10 := by
    have hmap : ("45.90".toList).map (fun c => if c = ',' then '.' else c) =
        "45.90".toList := by decide
    have hint : ("45.90".toList).takeWhile (fun c => c ≠ '.') =
        "45".toList := by decide
    have hdrop : ("45.90".toList).drop (("45".toList).length) =
        '.' :: "90".toList := by decide
    have h45 : digitsVal ("45".toList) = 45 := by decide
    have h90 : digitsVal ("90".toList) = 90 := by decide
    have hlen : ("90".toList).length = 2 := by decide
    simp only [parseAmountStr, hmap, hint, hdrop, h45, h90, hlen]
    norm_num
  show extractAmountFromFilename "invoice_UBER_2024-03-15_CHF45.90.pdf" =
    (some (459 / 10), "CHF")
  simp only [extractAmountFromFilename, hclean, hcur, amountPatternMatchers,
    amountSearchLoop, hscan, hparse]
  norm_num

end FinanceBuddy
